import Mathlib

/-!
Verification of the transactional data layer of the payment-gateway bank
simulator: the account ledger (`accountRepository`), the idempotency cache
(`idempotencyRepository`), the payment-record store
(`transactionRepository`) and the transactional execution context
(`db.Tx`).  Each repository method executes one SQL statement against
PostgreSQL; we embed the tables as lists of rows and each statement as a
pure function on that state, returning the post-state together with the
error outcome the Go method reports.  Timestamps are naturals, UUIDs are
naturals with 0 playing the role of `uuid.Nil`, and money amounts are
integers (cents), matching the `int64` columns.
-/

namespace PaymentGateway

/-- A row of the `accounts` table, as scanned by `accountRepository`
(`id, account_number, cvv, expiry_month, expiry_year, balance_cents,
available_balance_cents, created_at, updated_at`). -/
structure Account where
  id : Nat
  accountNumber : String
  cvv : String
  expiryMonth : Nat
  expiryYear : Nat
  balanceCents : Int
  availableBalanceCents : Int
  createdAt : Nat
  updatedAt : Nat
  deriving DecidableEq, Repr

/-- The single-row effect of the `UPDATE accounts SET balance_cents =
balance_cents + $2, available_balance_cents = available_balance_cents + $3,
updated_at = NOW() WHERE id = $1` statement of
`accountRepository.AdjustBalances`: a row whose id matches has both deltas
added to its stored values and its `updated_at` set to the statement time;
any other row is untouched. -/
def adjustRow (accountID : Nat) (balanceDelta availableBalanceDelta : Int)
    (now : Nat) (a : Account) : Account :=
  if a.id = accountID then
    { a with
      balanceCents := a.balanceCents + balanceDelta,
      availableBalanceCents := a.availableBalanceCents + availableBalanceDelta,
      updatedAt := now }
  else a

/-- Go method `accountRepository.AdjustBalances`: runs the single atomic UPDATE above,
then inspects `RowsAffected`; zero rows affected is reported as the
`account not found` error, otherwise the call succeeds.  Returns the
post-state of the `accounts` table and the error outcome. -/
def AdjustBalances (s : List Account) (accountID : Nat)
    (balanceDelta availableBalanceDelta : Int) (now : Nat) :
    List Account × Option String :=
  let updated := s.map (adjustRow accountID balanceDelta availableBalanceDelta now)
  if s.countP (fun a => a.id = accountID) = 0 then
    (updated, some "account not found")
  else
    (updated, none)

/-- The data-model invariant on one account:
`available_balance_cents <= balance_cents`. -/
def balanceInvariant (a : Account) : Prop :=
  a.availableBalanceCents ≤ a.balanceCents

instance (a : Account) : Decidable (balanceInvariant a) := by
  unfold balanceInvariant; infer_instance

/-- A row of the `idempotency_keys` table
(`key, request_path, response_status, response_body, created_at`). -/
structure IdempotencyKey where
  key : String
  requestPath : String
  responseStatus : Nat
  responseBody : String
  createdAt : Nat
  deriving DecidableEq, Repr

/-- The in-memory `models.IdempotencyKey` handed to `Store`, whose
`CreatedAt` may be absent — the INSERT stores
`COALESCE($5, NOW())` for it. -/
structure IdempotencyKeyInput where
  key : String
  requestPath : String
  responseStatus : Nat
  responseBody : String
  createdAt : Option Nat
  deriving DecidableEq, Repr

/-- Whether a stored row occupies the `(key, request_path)` composite
identity. -/
def matchesPair (key requestPath : String) (r : IdempotencyKey) : Prop :=
  r.key = key ∧ r.requestPath = requestPath

instance (key requestPath : String) (r : IdempotencyKey) :
    Decidable (matchesPair key requestPath r) := by
  unfold matchesPair; infer_instance

/-- Go method `idempotencyRepository.Get`: `SELECT ... WHERE key = $1 AND
request_path = $2`.  `sql.ErrNoRows` is mapped to `(nil, nil)` — absence is
the `.ok none` outcome, not an error; a matching row is returned as
`.ok (some row)`. -/
def idemGet (s : List IdempotencyKey) (key requestPath : String) :
    Except String (Option IdempotencyKey) :=
  .ok (s.find? (fun r => decide (matchesPair key requestPath r)))

/-- Go method `idempotencyRepository.Store`: `INSERT INTO idempotency_keys ... VALUES
($1, $2, $3, $4, COALESCE($5, NOW())) ON CONFLICT (key, request_path) DO
NOTHING`.  When a row for the same `(key, request_path)` pair already
exists the insert is discarded and the call still succeeds; otherwise the
new row is appended.  Returns the post-state and the error outcome. -/
def idemStore (s : List IdempotencyKey) (inp : IdempotencyKeyInput) (now : Nat) :
    List IdempotencyKey × Option String :=
  if s.any (fun r => decide (matchesPair inp.key inp.requestPath r)) then
    (s, none)
  else
    (s ++ [{ key := inp.key, requestPath := inp.requestPath,
             responseStatus := inp.responseStatus,
             responseBody := inp.responseBody,
             createdAt := inp.createdAt.getD now }], none)

/-- Go method `idempotencyRepository.DeleteOlderThan`: `DELETE FROM idempotency_keys
WHERE created_at < $1`, returning `RowsAffected`.  Returns the post-state,
the removed-row count and the error outcome. -/
def DeleteOlderThan (s : List IdempotencyKey) (before : Nat) :
    List IdempotencyKey × Int × Option String :=
  ((s.filter (fun r => !decide (r.createdAt < before))),
   (s.countP (fun r => decide (r.createdAt < before)) : Int),
   none)

/-- Payment-operation type (`models.TransactionType`): authorization,
capture, void, refund. -/
inductive TransactionType where
  | authorization
  | capture
  | void
  | refund
  deriving DecidableEq, Repr

/-- Payment-record status (`models.TransactionStatus`), opaque to the
store; `UpdateStatus` overwrites it without any transition check. -/
inductive TransactionStatus where
  | pending
  | authorized
  | captured
  | voided
  | refunded
  deriving DecidableEq, Repr

/-- Free-form metadata (`models.Metadata`): an opaque key/value mapping,
persisted as an encoded blob. -/
def Metadata := List (String × String)

instance : DecidableEq Metadata := by
  unfold Metadata; infer_instance

instance : Repr Metadata := by
  unfold Metadata; infer_instance

/-- The in-memory `models.Transaction` record, both the argument of
`Create` (where `id = 0` plays `uuid.Nil` and `createdAt`/`expiresAt` may
be absent) and the decoded result of the find methods. -/
structure Transaction where
  id : Nat
  accountID : Nat
  type : TransactionType
  amountCents : Int
  currency : String
  referenceID : Option Nat
  status : TransactionStatus
  expiresAt : Option Nat
  metadata : Option Metadata
  createdAt : Option Nat
  deriving DecidableEq, Repr

/-- A persisted row of the `transactions` table: metadata is stored as the
encoded blob (NULL when the record had none) and `created_at` is concrete
(`COALESCE($10, NOW())`). -/
structure TransactionRow where
  id : Nat
  accountID : Nat
  type : TransactionType
  amountCents : Int
  currency : String
  referenceID : Option Nat
  status : TransactionStatus
  expiresAt : Option Nat
  metadata : Option String
  createdAt : Nat
  deriving DecidableEq, Repr

/-- The row the INSERT of `transactionRepository.Create` produces from an
in-memory record and its already-encoded metadata blob. -/
def txToRow (tx : Transaction) (metadataJSON : Option String) (now : Nat) :
    TransactionRow :=
  { id := tx.id, accountID := tx.accountID, type := tx.type,
    amountCents := tx.amountCents, currency := tx.currency,
    referenceID := tx.referenceID, status := tx.status,
    expiresAt := tx.expiresAt, metadata := metadataJSON,
    createdAt := tx.createdAt.getD now }

/-- Modelled from the spec: the uniqueness constraints of the
`transactions` table, whose migration/DDL is not among the source files.
Spec section 6 gives the persisted schema with `id` as the identity and a
uniqueness constraint on `(reference_id, type)` making the
one-record-per-operation-per-reference invariant enforceable at the
storage layer (NULL `reference_id` exempt, as in SQL).  An insert whose
row collides on either constraint fails. -/
def insertConflict (s : List TransactionRow) (row : TransactionRow) : Bool :=
  s.any (fun r => decide (r.id = row.id)) ||
  (match row.referenceID with
   | none => false
   | some refID =>
     s.any (fun r => decide (r.referenceID = some refID) && decide (r.type = row.type)))

/-- The INSERT step of `transactionRepository.Create`: appends the row, or
reports the constraint violation (wrapped as `failed to create
transaction`) leaving the table unchanged. -/
def createInsert (s : List TransactionRow) (tx : Transaction)
    (metadataJSON : Option String) (now : Nat) :
    Transaction × List TransactionRow × Option String :=
  let row := txToRow tx metadataJSON now
  if insertConflict s row then
    (tx, s, some "failed to create transaction: unique constraint violation")
  else
    (tx, s ++ [row], none)

/-- The first step of `transactionRepository.Create`: the in-place
`tx.ID = uuid.New()` performed when the record arrives with `uuid.Nil`
(0) as its id; `freshId` stands for the generated UUID. -/
def assignId (tx : Transaction) (freshId : Nat) : Transaction :=
  if tx.id = 0 then { tx with id := freshId } else tx

/-- Go method `transactionRepository.Create`: first writes a fresh id into
the caller's record when its id is `uuid.Nil` (0), then — only when
metadata is present — encodes it via `json.Marshal` (the `marshal`
parameter, failing with the `failed to marshal metadata` error), then runs
the INSERT.  Returns the caller's record as it stands after the call (the
Go code mutates it in place), the post-state of the table, and the error
outcome. -/
def Create (marshal : Metadata → Option String) (s : List TransactionRow)
    (tx : Transaction) (freshId now : Nat) :
    Transaction × List TransactionRow × Option String :=
  match (assignId tx freshId).metadata with
  | some m =>
    match marshal m with
    | none => (assignId tx freshId, s, some "failed to marshal metadata")
    | some blob => createInsert s (assignId tx freshId) (some blob) now
  | none => createInsert s (assignId tx freshId) none now

/-- Decoding a stored row back into a `models.Transaction`, as the Scan +
`json.Unmarshal` tail of the find methods does: a NULL blob leaves
metadata absent; a non-NULL blob is decoded by `unmarshal`, whose failure
is the `failed to unmarshal metadata` error (`none` here). -/
def rowToTransaction (unmarshal : String → Option Metadata)
    (r : TransactionRow) : Option Transaction :=
  match r.metadata with
  | none =>
    some { id := r.id, accountID := r.accountID, type := r.type,
           amountCents := r.amountCents, currency := r.currency,
           referenceID := r.referenceID, status := r.status,
           expiresAt := r.expiresAt, metadata := none,
           createdAt := some r.createdAt }
  | some blob =>
    (unmarshal blob).map (fun m =>
      { id := r.id, accountID := r.accountID, type := r.type,
        amountCents := r.amountCents, currency := r.currency,
        referenceID := r.referenceID, status := r.status,
        expiresAt := r.expiresAt, metadata := some m,
        createdAt := some r.createdAt })

/-- Go method `transactionRepository.FindByReferenceID`: `SELECT ... WHERE
reference_id = $1 AND type = $2 LIMIT 1`; `sql.ErrNoRows` maps to
`(nil, nil)` — absence is `.ok none`, not an error — and a matched row is
decoded. -/
def FindByReferenceID (unmarshal : String → Option Metadata)
    (s : List TransactionRow) (refID : Nat) (txnType : TransactionType) :
    Except String (Option Transaction) :=
  match s.find? (fun r => decide (r.referenceID = some refID) && decide (r.type = txnType)) with
  | none => .ok none
  | some r =>
    match rowToTransaction unmarshal r with
    | none => .error "failed to unmarshal metadata"
    | some t => .ok (some t)

/-- Go method `transactionRepository.UpdateStatus`: `UPDATE transactions
SET status = $2 WHERE id = $1`; zero rows affected is reported as the
`transaction not found` error.  Returns the post-state and the error
outcome. -/
def UpdateStatus (s : List TransactionRow) (id : Nat)
    (status : TransactionStatus) : List TransactionRow × Option String :=
  let updated := s.map (fun r => if r.id = id then { r with status := status } else r)
  if s.countP (fun r => decide (r.id = id)) = 0 then
    (updated, some "transaction not found")
  else
    (updated, none)

/-- A mutating operation of the payment-record store, for stating
invariants over arbitrary operation sequences. -/
inductive StoreOp where
  | create (tx : Transaction) (freshId : Nat) (now : Nat)
  | update (id : Nat) (status : TransactionStatus)

/-- Effect of one store operation on the `transactions` table. -/
def applyOp (marshal : Metadata → Option String) (s : List TransactionRow) :
    StoreOp → List TransactionRow
  | .create tx freshId now => (Create marshal s tx freshId now).2.1
  | .update id status => (UpdateStatus s id status).1

/-- Effect of a sequence of store operations on the `transactions`
table. -/
def applyOps (marshal : Metadata → Option String) (s : List TransactionRow)
    (ops : List StoreOp) : List TransactionRow :=
  ops.foldl (applyOp marshal) s

/-- The payment-record invariant: at most one record of a given operation
type exists per reference id. -/
def refTypeUnique (s : List TransactionRow) : Prop :=
  ∀ refID : Nat, ∀ t : TransactionType,
    s.countP (fun r => decide (r.referenceID = some refID) && decide (r.type = t)) ≤ 1

/-- Lifecycle state of a `db.Tx` wrapped `sql.Tx`: active until committed
or rolled back. -/
inductive TxStatus where
  | active
  | committed
  | rolledBack
  deriving DecidableEq, Repr

/-- Error outcome of the underlying `database/sql` transaction calls:
`sql.ErrTxDone` when the transaction was already finalized, or some other
failure. -/
inductive SqlError where
  | txDone
  | other (msg : String)
  deriving DecidableEq, Repr

/-- Behavior of the underlying `sql.Tx.Rollback`: rolls an active
transaction back; on a finalized transaction it does nothing and returns
`sql.ErrTxDone`. -/
def sqlTxRollback : TxStatus → TxStatus × Option SqlError
  | .active => (.rolledBack, none)
  | t => (t, some .txDone)

/-- Go method `db.Tx.Rollback`: delegates to `sql.Tx.Rollback` and maps
`sql.ErrTxDone` to a `nil` error (already-finalized rollback is a no-op,
not an error); any other failure is wrapped and surfaced. -/
def TxRollback (t : TxStatus) : TxStatus × Option String :=
  match sqlTxRollback t with
  | (t2, none) => (t2, none)
  | (t2, some .txDone) => (t2, none)
  | (t2, some (.other m)) => (t2, some ("failed to rollback transaction: " ++ m))

/-! Helper lemmas shared by several results. -/

theorem account_countP_eq_zero (s : List Account) (accountID : Nat) :
    s.countP (fun a => a.id = accountID) = 0 ↔ ∀ a ∈ s, a.id ≠ accountID := by
  rw [List.countP_eq_zero]
  simp

theorem map_adjustRow_of_no_match (s : List Account) (accountID : Nat)
    (bd ad : Int) (now : Nat) (h : ∀ a ∈ s, a.id ≠ accountID) :
    s.map (adjustRow accountID bd ad now) = s := by
  induction s with
  | nil => rfl
  | cons a t ih =>
    have ha := h a (List.mem_cons_self a t)
    have ht : ∀ x ∈ t, x.id ≠ accountID := fun x hx => h x (List.mem_cons_of_mem a hx)
    simp [adjustRow, ha, ih ht]

/-- C4: AdjustBalances runs the one atomic UPDATE — each matched row gets
both deltas added to its stored values (`balance_cents + $2`,
`available_balance_cents + $3`, never a read-then-write) — and reports
success exactly when some row matched the id; an existing account with
both deltas zero still succeeds, and a nonexistent id yields the
`account not found` error with the table unchanged. -/
theorem adjustBalances_atomic_and_not_found
    (s : List Account) (accountID : Nat) (bd ad : Int) (now : Nat) :
    (AdjustBalances s accountID bd ad now).1
        = s.map (adjustRow accountID bd ad now)
    ∧ ((AdjustBalances s accountID bd ad now).2 = none ↔ ∃ a ∈ s, a.id = accountID)
    ∧ ((∃ a ∈ s, a.id = accountID) → (AdjustBalances s accountID 0 0 now).2 = none)
    ∧ ((∀ a ∈ s, a.id ≠ accountID) →
        AdjustBalances s accountID bd ad now = (s, some "account not found")) := by
  by_cases hc : s.countP (fun a => a.id = accountID) = 0
  · have hno : ∀ a ∈ s, a.id ≠ accountID := (account_countP_eq_zero s accountID).mp hc
    refine ⟨?_, ?_, ?_, ?_⟩
    · simp [AdjustBalances, hc]
    · simp only [AdjustBalances, hc, if_pos]
      constructor
      · intro h; cases h
      · rintro ⟨a, ha, haid⟩; exact absurd haid (hno a ha)
    · rintro ⟨a, ha, haid⟩; exact absurd haid (hno a ha)
    · intro _
      simp [AdjustBalances, hc, map_adjustRow_of_no_match s accountID bd ad now hno]
  · have hex : ∃ a ∈ s, a.id = accountID := by
      by_contra hno
      push_neg at hno
      exact hc ((account_countP_eq_zero s accountID).mpr hno)
    refine ⟨?_, ?_, ?_, ?_⟩
    · simp [AdjustBalances, hc]
    · simp [AdjustBalances, hc, hex]
    · intro _; simp [AdjustBalances, hc]
    · intro hno
      rcases hex with ⟨a, ha, haid⟩
      exact absurd haid (hno a ha)

/-- C4 witness: on a one-account table, a zero-delta adjustment against the
existing id succeeds, and an adjustment against a missing id returns the
not-found error with the table unchanged. -/
theorem adjustBalances_atomic_and_not_found_witness :
    ((AdjustBalances
        [{ id := 1, accountNumber := "4111", cvv := "123", expiryMonth := 1,
           expiryYear := 2030, balanceCents := 1000,
           availableBalanceCents := 1000, createdAt := 0,
           updatedAt := 0 }] 1 0 0 5).2 = none)
    ∧ (AdjustBalances
        [{ id := 1, accountNumber := "4111", cvv := "123", expiryMonth := 1,
           expiryYear := 2030, balanceCents := 1000,
           availableBalanceCents := 1000, createdAt := 0,
           updatedAt := 0 }] 2 (-5) (-5) 5
        = ([{ id := 1, accountNumber := "4111", cvv := "123", expiryMonth := 1,
              expiryYear := 2030, balanceCents := 1000,
              availableBalanceCents := 1000, createdAt := 0,
              updatedAt := 0 }], some "account not found")) :=
  ⟨(adjustBalances_atomic_and_not_found
      [{ id := 1, accountNumber := "4111", cvv := "123", expiryMonth := 1,
         expiryYear := 2030, balanceCents := 1000,
         availableBalanceCents := 1000, createdAt := 0,
         updatedAt := 0 }] 1 0 0 5).2.2.1 (by decide),
   (adjustBalances_atomic_and_not_found
      [{ id := 1, accountNumber := "4111", cvv := "123", expiryMonth := 1,
         expiryYear := 2030, balanceCents := 1000,
         availableBalanceCents := 1000, createdAt := 0,
         updatedAt := 0 }] 2 (-5) (-5) 5).2.2.2 (by decide)⟩

/-- C9: a successful zero-delta AdjustBalances on an existing account is
not a no-op on the stored row: the whole effect of the call is to set the
matched account's `updated_at` to the statement time `NOW()`, leaving its
balances and every field of every other account unchanged. -/
theorem adjustBalances_zero_delta_sets_updated_at
    (s : List Account) (accountID now : Nat)
    (h : ∃ a ∈ s, a.id = accountID) :
    AdjustBalances s accountID 0 0 now
      = (s.map (fun a => if a.id = accountID then { a with updatedAt := now } else a),
         none) := by
  have hc : ¬ s.countP (fun a => a.id = accountID) = 0 := by
    intro hc
    rcases h with ⟨a, ha, haid⟩
    exact (account_countP_eq_zero s accountID).mp hc a ha haid
  have hmap : ∀ a : Account,
      adjustRow accountID 0 0 now a
        = if a.id = accountID then { a with updatedAt := now } else a := by
    intro a
    by_cases haid : a.id = accountID <;> simp [adjustRow, haid]
  simp [AdjustBalances, hc, hmap]

/-- C9 witness: the zero-delta adjustment on a concrete one-account table
rewrites only `updated_at`. -/
theorem adjustBalances_zero_delta_sets_updated_at_witness :
    AdjustBalances
        [{ id := 3, accountNumber := "4222", cvv := "999", expiryMonth := 12,
           expiryYear := 2031, balanceCents := 250,
           availableBalanceCents := 100, createdAt := 1,
           updatedAt := 2 }] 3 0 0 9
      = ([{ id := 3, accountNumber := "4222", cvv := "999", expiryMonth := 12,
            expiryYear := 2031, balanceCents := 250,
            availableBalanceCents := 100, createdAt := 1,
            updatedAt := 9 }], none) := by
  have := adjustBalances_zero_delta_sets_updated_at
    [{ id := 3, accountNumber := "4222", cvv := "999", expiryMonth := 12,
       expiryYear := 2031, balanceCents := 250,
       availableBalanceCents := 100, createdAt := 1,
       updatedAt := 2 }] 3 9 ⟨_, List.mem_singleton.mpr rfl, rfl⟩
  simpa using this

/-- C1 counterexample: AdjustBalances performs no invariant check, so a
succeeding call with deltas `(0, +1)` on an account holding
`balance = available = 0` leaves the account with
`available_balance_cents > balance_cents`. -/
theorem adjustBalances_invariant_counterexample :
    ((AdjustBalances
        [{ id := 1, accountNumber := "4333", cvv := "000", expiryMonth := 6,
           expiryYear := 2029, balanceCents := 0, availableBalanceCents := 0,
           createdAt := 0, updatedAt := 0 }] 1 0 1 4).2 = none)
    ∧ ∃ a ∈ (AdjustBalances
        [{ id := 1, accountNumber := "4333", cvv := "000", expiryMonth := 6,
           expiryYear := 2029, balanceCents := 0, availableBalanceCents := 0,
           createdAt := 0, updatedAt := 0 }] 1 0 1 4).1,
        ¬ balanceInvariant a := by
  constructor
  · decide
  · exact ⟨{ id := 1, accountNumber := "4333", cvv := "000", expiryMonth := 6,
             expiryYear := 2029, balanceCents := 0, availableBalanceCents := 1,
             createdAt := 0, updatedAt := 4 }, by decide, by decide⟩

/-- C1 amended: AdjustBalances applies the deltas unconditionally, so the
data-model invariant `available_balance_cents <= balance_cents` is
preserved by a call only under the additional hypothesis
`availableBalanceDelta <= balanceDelta` (the layer itself never checks it;
deltas with `availableBalanceDelta > balanceDelta` can break it, as the
counterexample shows). -/
theorem adjustBalances_preserves_invariant_of_delta_le
    (s : List Account) (accountID : Nat) (bd ad : Int) (now : Nat)
    (hinv : ∀ a ∈ s, balanceInvariant a) (hdelta : ad ≤ bd) :
    ∀ a ∈ (AdjustBalances s accountID bd ad now).1, balanceInvariant a := by
  intro a ha
  have h1 : (AdjustBalances s accountID bd ad now).1
      = s.map (adjustRow accountID bd ad now) := by
    by_cases hc : s.countP (fun x => x.id = accountID) = 0 <;>
      simp [AdjustBalances, hc]
  rw [h1] at ha
  rcases List.mem_map.mp ha with ⟨b, hb, hba⟩
  subst hba
  have hbinv := hinv b hb
  by_cases hbid : b.id = accountID
  · simp only [adjustRow, if_pos hbid]
    exact add_le_add hbinv hdelta
  · simpa [adjustRow, hbid] using hbinv

/-- C1 amended witness: an account at `balance = 1000`,
`available = 1000` adjusted by `(-1000, -1000)` still satisfies the
invariant afterwards (the resulting row holds `balance = available = 0`). -/
theorem adjustBalances_preserves_invariant_witness :
    balanceInvariant
      { id := 7, accountNumber := "4444", cvv := "111", expiryMonth := 2,
        expiryYear := 2032, balanceCents := 0, availableBalanceCents := 0,
        createdAt := 0, updatedAt := 3 } :=
  adjustBalances_preserves_invariant_of_delta_le
    [{ id := 7, accountNumber := "4444", cvv := "111", expiryMonth := 2,
       expiryYear := 2032, balanceCents := 1000,
       availableBalanceCents := 1000, createdAt := 0,
       updatedAt := 0 }] 7 (-1000) (-1000) 3
    (by decide) (by decide)
    { id := 7, accountNumber := "4444", cvv := "111", expiryMonth := 2,
      expiryYear := 2032, balanceCents := 0, availableBalanceCents := 0,
      createdAt := 0, updatedAt := 3 }
    (by decide)

/-- C5: DeleteOlderThan never errors, removes exactly the idempotency rows
with `created_at` strictly before the cutoff (a row survives iff it was
present and not older than the cutoff, and the survivors keep their
original order), returns the count of removed rows, and an immediate
second run with the same cutoff removes zero rows. -/
theorem deleteOlderThan_exact (s : List IdempotencyKey) (before : Nat) :
    (DeleteOlderThan s before).2.2 = none
    ∧ (∀ r : IdempotencyKey,
        r ∈ (DeleteOlderThan s before).1 ↔ r ∈ s ∧ ¬ r.createdAt < before)
    ∧ (DeleteOlderThan s before).1.Sublist s
    ∧ (DeleteOlderThan s before).2.1
        = ((s.filter (fun r => decide (r.createdAt < before))).length : Int)
    ∧ DeleteOlderThan (DeleteOlderThan s before).1 before
        = ((DeleteOlderThan s before).1, 0, none) := by
  refine ⟨rfl, ?_, ?_, ?_, ?_⟩
  · intro r
    simp [DeleteOlderThan, List.mem_filter]
  · exact List.filter_sublist s
  · simp [DeleteOlderThan, List.countP_eq_length_filter]
  · have h1 : (s.filter (fun r => !decide (r.createdAt < before))).countP
        (fun r => decide (r.createdAt < before)) = 0 := by
      rw [List.countP_eq_zero]
      intro r hr
      simpa using (List.mem_filter.mp hr).2
    have h2 : (s.filter (fun r => !decide (r.createdAt < before))).filter
          (fun r => !decide (r.createdAt < before))
        = s.filter (fun r => !decide (r.createdAt < before)) :=
      List.filter_eq_self.mpr (fun r hr => (List.mem_filter.mp hr).2)
    simp [DeleteOlderThan, h1, h2]

/-- C5 witness: on a two-row table with creation times 1 and 10 and cutoff
5, the older row is removed (count 1), the newer survives, and a second
run removes zero. -/
theorem deleteOlderThan_exact_witness :
    ({ key := "k1", requestPath := "/p", responseStatus := 200,
       responseBody := "old", createdAt := 1 } : IdempotencyKey)
        ∉ (DeleteOlderThan
            [{ key := "k1", requestPath := "/p", responseStatus := 200,
               responseBody := "old", createdAt := 1 },
             { key := "k2", requestPath := "/p", responseStatus := 200,
               responseBody := "new", createdAt := 10 }] 5).1
    ∧ (DeleteOlderThan
          [{ key := "k1", requestPath := "/p", responseStatus := 200,
             responseBody := "old", createdAt := 1 },
           { key := "k2", requestPath := "/p", responseStatus := 200,
             responseBody := "new", createdAt := 10 }] 5).2.1
        = (1 : Int) := by
  have h := deleteOlderThan_exact
    [{ key := "k1", requestPath := "/p", responseStatus := 200,
       responseBody := "old", createdAt := 1 },
     { key := "k2", requestPath := "/p", responseStatus := 200,
       responseBody := "new", createdAt := 10 }] 5
  refine ⟨?_, ?_⟩
  · intro hmem
    have := (h.2.1 _).mp hmem
    exact absurd this.2 (by decide)
  · rw [h.2.2.2.1]
    decide

/-- C6: Get on a (key, request_path) pair for which no record exists
returns the explicit absent result (success carrying no record), not an
error; when a record exists for exactly that pair, Get succeeds with a
cached record of that pair. -/
theorem idemGet_absent_or_cached (s : List IdempotencyKey)
    (key requestPath : String) :
    ((∀ r ∈ s, ¬ matchesPair key requestPath r) →
      idemGet s key requestPath = .ok none)
    ∧ ((∃ r ∈ s, matchesPair key requestPath r) →
      ∃ r, idemGet s key requestPath = .ok (some r)
        ∧ r ∈ s ∧ matchesPair key requestPath r) := by
  constructor
  · intro h
    have : s.find? (fun r => decide (matchesPair key requestPath r)) = none := by
      rw [List.find?_eq_none]
      intro r hr
      simpa using h r hr
    simp [idemGet, this]
  · intro h
    have hsome : (s.find? (fun r => decide (matchesPair key requestPath r))).isSome := by
      rw [List.find?_isSome]
      rcases h with ⟨r, hr, hm⟩
      exact ⟨r, hr, by simpa using hm⟩
    rcases Option.isSome_iff_exists.mp hsome with ⟨r, hfind⟩
    refine ⟨r, ?_, List.mem_of_find?_eq_some hfind, ?_⟩
    · simp [idemGet, hfind]
    · simpa using List.find?_some hfind

/-- C6 witness: a Get against the empty table is the absent success, and a
Get against a one-row table returns that cached row. -/
theorem idemGet_absent_or_cached_witness :
    idemGet [] "k" "/pay" = .ok none
    ∧ ∃ r, idemGet
        [{ key := "k", requestPath := "/pay", responseStatus := 201,
           responseBody := "done", createdAt := 3 }] "k" "/pay" = .ok (some r)
        ∧ r ∈ [({ key := "k", requestPath := "/pay", responseStatus := 201,
                  responseBody := "done", createdAt := 3 } : IdempotencyKey)]
        ∧ matchesPair "k" "/pay" r :=
  ⟨(idemGet_absent_or_cached [] "k" "/pay").1 (by decide),
   (idemGet_absent_or_cached
      [{ key := "k", requestPath := "/pay", responseStatus := 201,
         responseBody := "done", createdAt := 3 }] "k" "/pay").2
     ⟨{ key := "k", requestPath := "/pay", responseStatus := 201,
        responseBody := "done", createdAt := 3 }, by decide, by decide⟩⟩

/-- C2: Store is first-writer-wins: when the table already holds a record
for the incoming record's (key, request_path) pair, Store succeeds and
leaves the table unchanged (the ON CONFLICT DO NOTHING discards the
insert), the pair still occupies exactly one row (given the composite
uniqueness the table guarantees), and every subsequent Get for the pair
returns exactly what it returned before — the original winning record. -/
theorem idemStore_first_writer_wins
    (s : List IdempotencyKey) (inp : IdempotencyKeyInput) (now : Nat)
    (h : ∃ r ∈ s, matchesPair inp.key inp.requestPath r) :
    idemStore s inp now = (s, none)
    ∧ (s.countP (fun r => matchesPair inp.key inp.requestPath r) = 1 →
        (idemStore s inp now).1.countP
          (fun r => matchesPair inp.key inp.requestPath r) = 1)
    ∧ idemGet (idemStore s inp now).1 inp.key inp.requestPath
        = idemGet s inp.key inp.requestPath := by
  have hany : s.any (fun r => decide (matchesPair inp.key inp.requestPath r)) = true := by
    rw [List.any_eq_true]
    rcases h with ⟨r, hr, hm⟩
    exact ⟨r, hr, by simpa using hm⟩
  have hs : idemStore s inp now = (s, none) := by
    simp [idemStore, hany]
  exact ⟨hs, fun h1 => by rw [hs]; exact h1, by rw [hs]⟩

/-- C2 witness: storing a second record with the same key and path but a
different payload leaves the one-row table unchanged, reports success, and
Get still returns the original payload. -/
theorem idemStore_first_writer_wins_witness :
    idemStore
        [{ key := "idem-1", requestPath := "/pay", responseStatus := 200,
           responseBody := "winner", createdAt := 2 }]
        { key := "idem-1", requestPath := "/pay", responseStatus := 500,
          responseBody := "loser", createdAt := some 8 } 9
      = ([{ key := "idem-1", requestPath := "/pay", responseStatus := 200,
            responseBody := "winner", createdAt := 2 }], none)
    ∧ idemGet
        (idemStore
          [{ key := "idem-1", requestPath := "/pay", responseStatus := 200,
             responseBody := "winner", createdAt := 2 }]
          { key := "idem-1", requestPath := "/pay", responseStatus := 500,
            responseBody := "loser", createdAt := some 8 } 9).1 "idem-1" "/pay"
      = idemGet
          [{ key := "idem-1", requestPath := "/pay", responseStatus := 200,
             responseBody := "winner", createdAt := 2 }] "idem-1" "/pay" := by
  have h := idemStore_first_writer_wins
    [{ key := "idem-1", requestPath := "/pay", responseStatus := 200,
       responseBody := "winner", createdAt := 2 }]
    { key := "idem-1", requestPath := "/pay", responseStatus := 500,
      responseBody := "loser", createdAt := some 8 } 9
    ⟨{ key := "idem-1", requestPath := "/pay", responseStatus := 200,
       responseBody := "winner", createdAt := 2 }, by decide, by decide⟩
  exact ⟨h.1, h.2.2⟩

/-- C8: db.Tx.Rollback rolls an active transaction back and, on a
transaction that was already finalized (committed or rolled back), is a
no-op that returns success — the underlying `sql.ErrTxDone` is swallowed
rather than surfaced. -/
theorem txRollback_no_op_when_finalized (t : TxStatus) :
    TxRollback t = (if t = TxStatus.active then TxStatus.rolledBack else t, none) := by
  cases t <;> rfl

theorem txrow_countP_eq_zero (s : List TransactionRow) (id : Nat) :
    s.countP (fun r => r.id = id) = 0 ↔ ∀ r ∈ s, r.id ≠ id := by
  rw [List.countP_eq_zero]
  simp

theorem map_statusRow_of_no_match (s : List TransactionRow) (id : Nat)
    (st : TransactionStatus) (h : ∀ r ∈ s, r.id ≠ id) :
    s.map (fun r => if r.id = id then { r with status := st } else r) = s := by
  induction s with
  | nil => rfl
  | cons a t ih =>
    have ha := h a (List.mem_cons_self a t)
    have ht : ∀ x ∈ t, x.id ≠ id := fun x hx => h x (List.mem_cons_of_mem a hx)
    simp [ha, ih ht]

/-- C7: UpdateStatus is an unconditional overwrite with no transition-table
check: whatever the current status, every row matching the id gets exactly
the asserted status (all its other fields unchanged, every other row
untouched), the call succeeds exactly when a row matched, and a
nonexistent id yields the `transaction not found` error with the table
unchanged. -/
theorem updateStatus_unconditional_overwrite
    (s : List TransactionRow) (id : Nat) (newStatus : TransactionStatus) :
    (UpdateStatus s id newStatus).1
        = s.map (fun r => if r.id = id then { r with status := newStatus } else r)
    ∧ ((UpdateStatus s id newStatus).2 = none ↔ ∃ r ∈ s, r.id = id)
    ∧ (∀ r ∈ (UpdateStatus s id newStatus).1, r.id = id → r.status = newStatus)
    ∧ ((∀ r ∈ s, r.id ≠ id) →
        UpdateStatus s id newStatus = (s, some "transaction not found")) := by
  have hfst : (UpdateStatus s id newStatus).1
      = s.map (fun r => if r.id = id then { r with status := newStatus } else r) := by
    by_cases hc : s.countP (fun r => r.id = id) = 0 <;> simp [UpdateStatus, hc]
  refine ⟨hfst, ?_, ?_, ?_⟩
  · by_cases hc : s.countP (fun r => r.id = id) = 0
    · have hno := (txrow_countP_eq_zero s id).mp hc
      simp only [UpdateStatus, hc, if_pos]
      constructor
      · intro h; cases h
      · rintro ⟨r, hr, hrid⟩; exact absurd hrid (hno r hr)
    · have hex : ∃ r ∈ s, r.id = id := by
        by_contra hno
        push_neg at hno
        exact hc ((txrow_countP_eq_zero s id).mpr hno)
      simp [UpdateStatus, hc, hex]
  · intro r hr hrid
    rw [hfst] at hr
    rcases List.mem_map.mp hr with ⟨b, hb, hbr⟩
    by_cases hbid : b.id = id
    · rw [← hbr]; simp [hbid]
    · rw [← hbr] at hrid ⊢
      simp only [if_neg hbid] at hrid ⊢
      exact absurd hrid hbid
  · intro hno
    have hc : s.countP (fun r => r.id = id) = 0 := (txrow_countP_eq_zero s id).mpr hno
    simp [UpdateStatus, hc, map_statusRow_of_no_match s id newStatus hno]

/-- C7 witness: overwriting the status of the one existing row succeeds and
sets exactly that status; updating a missing id reports not-found and
leaves the table unchanged. -/
theorem updateStatus_unconditional_overwrite_witness :
    (∀ r ∈ (UpdateStatus
        [{ id := 11, accountID := 1, type := TransactionType.authorization,
           amountCents := 500, currency := "USD", referenceID := none,
           status := TransactionStatus.pending, expiresAt := none,
           metadata := none, createdAt := 4 }] 11 TransactionStatus.voided).1,
      r.id = 11 → r.status = TransactionStatus.voided)
    ∧ UpdateStatus
        [{ id := 11, accountID := 1, type := TransactionType.authorization,
           amountCents := 500, currency := "USD", referenceID := none,
           status := TransactionStatus.pending, expiresAt := none,
           metadata := none, createdAt := 4 }] 12 TransactionStatus.voided
      = ([{ id := 11, accountID := 1, type := TransactionType.authorization,
            amountCents := 500, currency := "USD", referenceID := none,
            status := TransactionStatus.pending, expiresAt := none,
            metadata := none, createdAt := 4 }], some "transaction not found") :=
  ⟨(updateStatus_unconditional_overwrite
      [{ id := 11, accountID := 1, type := TransactionType.authorization,
         amountCents := 500, currency := "USD", referenceID := none,
         status := TransactionStatus.pending, expiresAt := none,
         metadata := none, createdAt := 4 }] 11 TransactionStatus.voided).2.2.1,
   (updateStatus_unconditional_overwrite
      [{ id := 11, accountID := 1, type := TransactionType.authorization,
         amountCents := 500, currency := "USD", referenceID := none,
         status := TransactionStatus.pending, expiresAt := none,
         metadata := none, createdAt := 4 }] 12 TransactionStatus.voided).2.2.2
     (by decide)⟩

/-! Helper lemmas about `Create` and `insertConflict`. -/

theorem assignId_id_of_nil (tx : Transaction) (freshId : Nat) (h : tx.id = 0) :
    assignId tx freshId = { tx with id := freshId } := by
  simp [assignId, h]

theorem assignId_id_of_ne (tx : Transaction) (freshId : Nat) (h : tx.id ≠ 0) :
    assignId tx freshId = tx := by
  simp [assignId, h]

theorem assignId_metadata (tx : Transaction) (freshId : Nat) :
    (assignId tx freshId).metadata = tx.metadata := by
  by_cases h : tx.id = 0 <;> simp [assignId, h]

theorem assignId_referenceID (tx : Transaction) (freshId : Nat) :
    (assignId tx freshId).referenceID = tx.referenceID := by
  by_cases h : tx.id = 0 <;> simp [assignId, h]

theorem assignId_type (tx : Transaction) (freshId : Nat) :
    (assignId tx freshId).type = tx.type := by
  by_cases h : tx.id = 0 <;> simp [assignId, h]

theorem createInsert_of_conflict (s : List TransactionRow) (tx : Transaction)
    (mj : Option String) (now : Nat)
    (h : insertConflict s (txToRow tx mj now) = true) :
    createInsert s tx mj now
      = (tx, s, some "failed to create transaction: unique constraint violation") := by
  simp [createInsert, h]

theorem createInsert_of_no_conflict (s : List TransactionRow) (tx : Transaction)
    (mj : Option String) (now : Nat)
    (h : insertConflict s (txToRow tx mj now) = false) :
    createInsert s tx mj now = (tx, s ++ [txToRow tx mj now], none) := by
  simp [createInsert, h]

theorem createInsert_fst (s : List TransactionRow) (tx : Transaction)
    (mj : Option String) (now : Nat) : (createInsert s tx mj now).1 = tx := by
  by_cases h : insertConflict s (txToRow tx mj now) = true
  · rw [createInsert_of_conflict s tx mj now h]
  · rw [createInsert_of_no_conflict s tx mj now (Bool.not_eq_true _ ▸ h)]

theorem createInsert_err_ne_marshal (s : List TransactionRow) (tx : Transaction)
    (mj : Option String) (now : Nat) :
    (createInsert s tx mj now).2.2 ≠ some "failed to marshal metadata" := by
  by_cases h : insertConflict s (txToRow tx mj now) = true
  · rw [createInsert_of_conflict s tx mj now h]
    simp
  · rw [createInsert_of_no_conflict s tx mj now (Bool.not_eq_true _ ▸ h)]
    simp

theorem create_of_metadata_none (marshal : Metadata → Option String)
    (s : List TransactionRow) (tx : Transaction) (freshId now : Nat)
    (h : tx.metadata = none) :
    Create marshal s tx freshId now
      = createInsert s (assignId tx freshId) none now := by
  unfold Create
  rw [assignId_metadata, h]

theorem create_of_marshal_some (marshal : Metadata → Option String)
    (s : List TransactionRow) (tx : Transaction) (freshId now : Nat)
    (m : Metadata) (blob : String) (h : tx.metadata = some m)
    (hb : marshal m = some blob) :
    Create marshal s tx freshId now
      = createInsert s (assignId tx freshId) (some blob) now := by
  unfold Create
  rw [assignId_metadata, h]
  simp [hb]

theorem create_of_marshal_none (marshal : Metadata → Option String)
    (s : List TransactionRow) (tx : Transaction) (freshId now : Nat)
    (m : Metadata) (h : tx.metadata = some m) (hb : marshal m = none) :
    Create marshal s tx freshId now
      = (assignId tx freshId, s, some "failed to marshal metadata") := by
  unfold Create
  rw [assignId_metadata, h]
  simp [hb]

theorem create_fst (marshal : Metadata → Option String) (s : List TransactionRow)
    (tx : Transaction) (freshId now : Nat) :
    (Create marshal s tx freshId now).1 = assignId tx freshId := by
  cases h : tx.metadata with
  | none => rw [create_of_metadata_none marshal s tx freshId now h, createInsert_fst]
  | some m =>
    cases hb : marshal m with
    | none => rw [create_of_marshal_none marshal s tx freshId now m h hb]
    | some blob =>
      rw [create_of_marshal_some marshal s tx freshId now m blob h hb, createInsert_fst]

theorem no_ref_match_of_insertConflict_false (s : List TransactionRow)
    (row : TransactionRow) (refID : Nat) (h : insertConflict s row = false)
    (hrow : row.referenceID = some refID) :
    ∀ r ∈ s, ¬ (r.referenceID = some refID ∧ r.type = row.type) := by
  unfold insertConflict at h
  rw [hrow] at h
  rw [Bool.or_eq_false_iff] at h
  intro r hr hcon
  have h2 := h.2
  rw [List.any_eq_false] at h2
  have hrf := h2 r hr
  simp [hcon.1, hcon.2] at hrf

theorem createInsert_preserves_refTypeUnique (s : List TransactionRow)
    (tx : Transaction) (mj : Option String) (now : Nat)
    (hs : refTypeUnique s) : refTypeUnique (createInsert s tx mj now).2.1 := by
  by_cases hc : insertConflict s (txToRow tx mj now) = true
  · rw [createInsert_of_conflict s tx mj now hc]
    exact hs
  · have hc2 : insertConflict s (txToRow tx mj now) = false := Bool.not_eq_true _ ▸ hc
    rw [createInsert_of_no_conflict s tx mj now hc2]
    intro refID t
    rw [List.countP_append]
    by_cases hmatch : (txToRow tx mj now).referenceID = some refID
        ∧ (txToRow tx mj now).type = t
    · have h0 : s.countP
          (fun r => decide (r.referenceID = some refID) && decide (r.type = t)) = 0 := by
        rw [List.countP_eq_zero]
        intro r hr
        have hno := no_ref_match_of_insertConflict_false s (txToRow tx mj now)
          refID hc2 hmatch.1 r hr
        rw [hmatch.2] at hno
        simp only [Bool.and_eq_true, decide_eq_true_eq]
        exact hno
      rw [h0]
      have hle := List.countP_le_length
        (fun r => decide (r.referenceID = some refID) && decide (r.type = t))
        (l := [txToRow tx mj now])
      simpa using hle
    · have h1 : List.countP
          (fun r => decide (r.referenceID = some refID) && decide (r.type = t))
          [txToRow tx mj now] = 0 := by
        rw [List.countP_eq_zero]
        intro r hr
        rw [List.mem_singleton] at hr
        subst hr
        simp only [Bool.and_eq_true, decide_eq_true_eq]
        exact hmatch
      rw [h1]
      simpa using hs refID t

theorem updateStatus_fst (s : List TransactionRow) (id : Nat)
    (st : TransactionStatus) :
    (UpdateStatus s id st).1
      = s.map (fun r => if r.id = id then { r with status := st } else r) := by
  by_cases hc : s.countP (fun r => r.id = id) = 0 <;> simp [UpdateStatus, hc]

theorem updateStatus_preserves_refTypeUnique (s : List TransactionRow)
    (id : Nat) (st : TransactionStatus) (hs : refTypeUnique s) :
    refTypeUnique (UpdateStatus s id st).1 := by
  intro refID t
  rw [updateStatus_fst, List.countP_map]
  have hcong : s.countP
      ((fun r => decide (r.referenceID = some refID) && decide (r.type = t)) ∘
        (fun r => if r.id = id then { r with status := st } else r))
    = s.countP (fun r => decide (r.referenceID = some refID) && decide (r.type = t)) := by
    apply List.countP_congr
    intro r _
    by_cases hid : r.id = id <;> simp [hid]
  rw [hcong]
  exact hs refID t

theorem create_preserves_refTypeUnique (marshal : Metadata → Option String)
    (s : List TransactionRow) (tx : Transaction) (freshId now : Nat)
    (hs : refTypeUnique s) :
    refTypeUnique (Create marshal s tx freshId now).2.1 := by
  cases h : tx.metadata with
  | none =>
    rw [create_of_metadata_none marshal s tx freshId now h]
    exact createInsert_preserves_refTypeUnique _ _ _ _ hs
  | some m =>
    cases hb : marshal m with
    | none =>
      rw [create_of_marshal_none marshal s tx freshId now m h hb]
      exact hs
    | some blob =>
      rw [create_of_marshal_some marshal s tx freshId now m blob h hb]
      exact createInsert_preserves_refTypeUnique _ _ _ _ hs

theorem applyOps_preserves_refTypeUnique (marshal : Metadata → Option String)
    (ops : List StoreOp) :
    ∀ s : List TransactionRow, refTypeUnique s →
      refTypeUnique (applyOps marshal s ops) := by
  induction ops with
  | nil => exact fun s hs => hs
  | cons op t ih =>
    intro s hs
    cases op with
    | create tx freshId now =>
      exact ih _ (create_preserves_refTypeUnique marshal s tx freshId now hs)
    | update id st =>
      exact ih _ (updateStatus_preserves_refTypeUnique s id st hs)

theorem find?_append_of_none {α : Type} (l1 l2 : List α) (p : α → Bool)
    (h : l1.find? p = none) : (l1 ++ l2).find? p = l2.find? p := by
  induction l1 with
  | nil => rfl
  | cons a t ih =>
    cases hpa : p a with
    | true =>
      rw [List.find?_cons_of_pos _ hpa] at h
      cases h
    | false =>
      have hpa2 : ¬ p a = true := by simp [hpa]
      rw [List.find?_cons_of_neg _ hpa2] at h
      rw [List.cons_append, List.find?_cons_of_neg _ hpa2]
      exact ih h

theorem createInsert_success (s : List TransactionRow) (tx : Transaction)
    (mj : Option String) (now : Nat)
    (h : (createInsert s tx mj now).2.2 = none) :
    insertConflict s (txToRow tx mj now) = false ∧
    (createInsert s tx mj now).2.1 = s ++ [txToRow tx mj now] := by
  by_cases hc : insertConflict s (txToRow tx mj now) = true
  · rw [createInsert_of_conflict s tx mj now hc] at h
    simp at h
  · have hc2 : insertConflict s (txToRow tx mj now) = false := Bool.not_eq_true _ ▸ hc
    rw [createInsert_of_no_conflict s tx mj now hc2]
    exact ⟨hc2, rfl⟩

theorem rowToTransaction_metadata_none (unmarshal : String → Option Metadata)
    (r : TransactionRow) (hm : r.metadata = none) :
    rowToTransaction unmarshal r
      = some { id := r.id, accountID := r.accountID, type := r.type,
               amountCents := r.amountCents, currency := r.currency,
               referenceID := r.referenceID, status := r.status,
               expiresAt := r.expiresAt, metadata := none,
               createdAt := some r.createdAt } := by
  cases r with
  | mk i a ty am cu rf st ex md cr =>
    cases md with
    | none => rfl
    | some blob => simp at hm

theorem rowToTransaction_metadata_some (unmarshal : String → Option Metadata)
    (r : TransactionRow) (blob : String) (hm : r.metadata = some blob) :
    rowToTransaction unmarshal r
      = (unmarshal blob).map (fun m =>
          { id := r.id, accountID := r.accountID, type := r.type,
            amountCents := r.amountCents, currency := r.currency,
            referenceID := r.referenceID, status := r.status,
            expiresAt := r.expiresAt, metadata := some m,
            createdAt := some r.createdAt }) := by
  cases r with
  | mk i a ty am cu rf st ex md cr =>
    cases md with
    | none => simp at hm
    | some b =>
      have hb : b = blob := by simpa using hm
      subst hb
      rfl

theorem rowToTransaction_fields (unmarshal : String → Option Metadata)
    (r : TransactionRow) (t2 : Transaction)
    (h : rowToTransaction unmarshal r = some t2) :
    t2.id = r.id ∧ t2.referenceID = r.referenceID ∧ t2.type = r.type := by
  cases hm : r.metadata with
  | none =>
    rw [rowToTransaction_metadata_none unmarshal r hm] at h
    simp only [Option.some.injEq] at h
    subst h
    exact ⟨rfl, rfl, rfl⟩
  | some blob =>
    rw [rowToTransaction_metadata_some unmarshal r blob hm] at h
    cases hu : unmarshal blob with
    | none =>
      rw [hu] at h
      simp at h
    | some m =>
      rw [hu, Option.map_some'] at h
      simp only [Option.some.injEq] at h
      subst h
      exact ⟨rfl, rfl, rfl⟩

theorem rowToTransaction_isSome_of_metadata_none
    (unmarshal : String → Option Metadata) (r : TransactionRow)
    (hm : r.metadata = none) :
    ∃ t2, rowToTransaction unmarshal r = some t2 := by
  rw [rowToTransaction_metadata_none unmarshal r hm]
  exact ⟨_, rfl⟩

theorem rowToTransaction_isSome_of_unmarshal
    (unmarshal : String → Option Metadata) (r : TransactionRow) (blob : String)
    (m : Metadata) (hm : r.metadata = some blob) (hu : unmarshal blob = some m) :
    ∃ t2, rowToTransaction unmarshal r = some t2 := by
  rw [rowToTransaction_metadata_some unmarshal r blob hm, hu, Option.map_some']
  exact ⟨_, rfl⟩

theorem findByReferenceID_of_find_some (unmarshal : String → Option Metadata)
    (s : List TransactionRow) (refID : Nat) (t : TransactionType)
    (row : TransactionRow)
    (hfind : s.find?
      (fun r => decide (r.referenceID = some refID) && decide (r.type = t))
        = some row) :
    FindByReferenceID unmarshal s refID t
      = match rowToTransaction unmarshal row with
        | none => Except.error "failed to unmarshal metadata"
        | some tt => Except.ok (some tt) := by
  rw [FindByReferenceID, hfind]

theorem findByReferenceID_of_no_match (unmarshal : String → Option Metadata)
    (s : List TransactionRow) (refID : Nat) (t : TransactionType)
    (h : ∀ r ∈ s, ¬ (r.referenceID = some refID ∧ r.type = t)) :
    FindByReferenceID unmarshal s refID t = Except.ok none := by
  have hf : s.find?
      (fun r => decide (r.referenceID = some refID) && decide (r.type = t)) = none := by
    rw [List.find?_eq_none]
    intro r hr
    simp only [Bool.and_eq_true, decide_eq_true_eq]
    exact h r hr
  rw [FindByReferenceID, hf]

theorem findByReferenceID_after_insert (unmarshal : String → Option Metadata)
    (s : List TransactionRow) (row : TransactionRow) (refID : Nat)
    (t : TransactionType)
    (hno : ∀ r ∈ s, ¬ (r.referenceID = some refID ∧ r.type = t))
    (hrowRef : row.referenceID = some refID) (hrowType : row.type = t)
    (hdec : ∃ t2, rowToTransaction unmarshal row = some t2) :
    ∃ t2, FindByReferenceID unmarshal (s ++ [row]) refID t = Except.ok (some t2)
      ∧ t2.referenceID = some refID ∧ t2.type = t ∧ t2.id = row.id := by
  rcases hdec with ⟨t2, ht2⟩
  have hfs : s.find?
      (fun r => decide (r.referenceID = some refID) && decide (r.type = t)) = none := by
    rw [List.find?_eq_none]
    intro r hr
    simp only [Bool.and_eq_true, decide_eq_true_eq]
    exact hno r hr
  have hfind : (s ++ [row]).find?
      (fun r => decide (r.referenceID = some refID) && decide (r.type = t)) = some row := by
    rw [find?_append_of_none _ _ _ hfs]
    rw [List.find?_cons_of_pos]
    simp [hrowRef, hrowType]
  have hfields := rowToTransaction_fields unmarshal row t2 ht2
  refine ⟨t2, ?_, ?_, ?_, hfields.1⟩
  · rw [findByReferenceID_of_find_some unmarshal (s ++ [row]) refID t row hfind, ht2]
  · rw [hfields.2.1, hrowRef]
  · rw [hfields.2.2, hrowType]

theorem txToRow_referenceID (tx : Transaction) (mj : Option String) (now : Nat) :
    (txToRow tx mj now).referenceID = tx.referenceID := rfl

theorem txToRow_type (tx : Transaction) (mj : Option String) (now : Nat) :
    (txToRow tx mj now).type = tx.type := rfl

theorem txToRow_id (tx : Transaction) (mj : Option String) (now : Nat) :
    (txToRow tx mj now).id = tx.id := rfl

theorem txToRow_metadata (tx : Transaction) (mj : Option String) (now : Nat) :
    (txToRow tx mj now).metadata = mj := rfl

/-- C3: the payment-record store maintains at most one record of a given
operation type per reference id: every sequence of Create and UpdateStatus
operations preserves `refTypeUnique` (Create leans on the table's
uniqueness constraint on `(reference_id, type)`, and UpdateStatus never
touches those columns); consequently FindByReferenceID(R, T) returns the
absent success while no record with reference (R, T) exists, and after one
successful Create of such a record (with a JSON encode/decode pair that
round-trips) it returns that single matching record. -/
theorem refTypeUnique_maintained_and_find_consequence
    (marshal : Metadata → Option String) (unmarshal : String → Option Metadata)
    (ops : List StoreOp) (s : List TransactionRow) (tx : Transaction)
    (freshId now refID : Nat) (t : TransactionType) :
    (refTypeUnique s → refTypeUnique (applyOps marshal s ops))
    ∧ ((∀ r ∈ s, ¬ (r.referenceID = some refID ∧ r.type = t)) →
        FindByReferenceID unmarshal s refID t = Except.ok none)
    ∧ ((∀ r ∈ s, ¬ (r.referenceID = some refID ∧ r.type = t)) →
        tx.referenceID = some refID → tx.type = t →
        (∀ m blob, marshal m = some blob → unmarshal blob = some m) →
        (Create marshal s tx freshId now).2.2 = none →
        ∃ t2 : Transaction,
          FindByReferenceID unmarshal (Create marshal s tx freshId now).2.1 refID t
            = Except.ok (some t2)
          ∧ t2.referenceID = some refID ∧ t2.type = t
          ∧ t2.id = (Create marshal s tx freshId now).1.id) := by
  refine ⟨applyOps_preserves_refTypeUnique marshal ops s,
    findByReferenceID_of_no_match unmarshal s refID t, ?_⟩
  intro hno href htype hrt hsucc
  cases hmd : tx.metadata with
  | none =>
    have hEq := create_of_metadata_none marshal s tx freshId now hmd
    have hsucc2 : (createInsert s (assignId tx freshId) none now).2.2 = none := by
      rw [← hEq]; exact hsucc
    obtain ⟨hcf, hpost⟩ := createInsert_success s (assignId tx freshId) none now hsucc2
    have hdec := rowToTransaction_isSome_of_metadata_none unmarshal
      (txToRow (assignId tx freshId) none now) (txToRow_metadata _ _ _)
    have hres := findByReferenceID_after_insert unmarshal s
      (txToRow (assignId tx freshId) none now) refID t hno
      (by rw [txToRow_referenceID, assignId_referenceID]; exact href)
      (by rw [txToRow_type, assignId_type]; exact htype)
      hdec
    rcases hres with ⟨t2, h1, h2, h3, h4⟩
    refine ⟨t2, ?_, h2, h3, ?_⟩
    · rw [hEq, hpost]
      exact h1
    · rw [create_fst]
      rw [txToRow_id] at h4
      exact h4
  | some m =>
    cases hb : marshal m with
    | none =>
      rw [create_of_marshal_none marshal s tx freshId now m hmd hb] at hsucc
      simp at hsucc
    | some blob =>
      have hEq := create_of_marshal_some marshal s tx freshId now m blob hmd hb
      have hsucc2 : (createInsert s (assignId tx freshId) (some blob) now).2.2 = none := by
        rw [← hEq]; exact hsucc
      obtain ⟨hcf, hpost⟩ :=
        createInsert_success s (assignId tx freshId) (some blob) now hsucc2
      have hdec := rowToTransaction_isSome_of_unmarshal unmarshal
        (txToRow (assignId tx freshId) (some blob) now) blob m
        (txToRow_metadata _ _ _) (hrt m blob hb)
      have hres := findByReferenceID_after_insert unmarshal s
        (txToRow (assignId tx freshId) (some blob) now) refID t hno
        (by rw [txToRow_referenceID, assignId_referenceID]; exact href)
        (by rw [txToRow_type, assignId_type]; exact htype)
        hdec
      rcases hres with ⟨t2, h1, h2, h3, h4⟩
      refine ⟨t2, ?_, h2, h3, ?_⟩
      · rw [hEq, hpost]
        exact h1
      · rw [create_fst]
        rw [txToRow_id] at h4
        exact h4

/-- C3 witness: in an empty table, creating one capture record referencing
authorization 5 succeeds, and FindByReferenceID(5, capture) afterwards
returns that single record, carrying the id the Create generated. -/
theorem refTypeUnique_maintained_and_find_consequence_witness :
    ∃ t2 : Transaction,
      FindByReferenceID (fun _ => none)
        (Create (fun _ => none) []
          { id := 0, accountID := 1, type := TransactionType.capture,
            amountCents := 100, currency := "USD", referenceID := some 5,
            status := TransactionStatus.captured, expiresAt := none,
            metadata := none, createdAt := some 2 } 9 3).2.1 5
          TransactionType.capture
        = Except.ok (some t2)
      ∧ t2.referenceID = some 5 ∧ t2.type = TransactionType.capture
      ∧ t2.id = (Create (fun _ => none) []
          { id := 0, accountID := 1, type := TransactionType.capture,
            amountCents := 100, currency := "USD", referenceID := some 5,
            status := TransactionStatus.captured, expiresAt := none,
            metadata := none, createdAt := some 2 } 9 3).1.id :=
  (refTypeUnique_maintained_and_find_consequence (fun _ => none) (fun _ => none)
    [] []
    { id := 0, accountID := 1, type := TransactionType.capture,
      amountCents := 100, currency := "USD", referenceID := some 5,
      status := TransactionStatus.captured, expiresAt := none,
      metadata := none, createdAt := some 2 } 9 3 5 TransactionType.capture).2.2
    (by simp) rfl rfl (fun m blob h => Option.noConfusion h) rfl

/-- C10: Create mutates its argument in place: a record arriving with the
nil id gets the freshly generated id written into it before the INSERT, so
the caller reads the generated identity off the record it passed; a
non-nil id is preserved unchanged; and a record without metadata never
hits the metadata-encoding failure — no encoding is attempted — while on
success the row persisted for it carries a NULL metadata value. -/
theorem create_inPlace_id_and_nil_metadata
    (marshal : Metadata → Option String) (s : List TransactionRow)
    (tx : Transaction) (freshId now : Nat) :
    (tx.id = 0 → (Create marshal s tx freshId now).1 = { tx with id := freshId })
    ∧ (tx.id ≠ 0 → (Create marshal s tx freshId now).1 = tx)
    ∧ (tx.metadata = none →
        (Create marshal s tx freshId now).2.2 ≠ some "failed to marshal metadata"
        ∧ ((Create marshal s tx freshId now).2.2 = none →
          (Create marshal s tx freshId now).2.1
            = s ++ [txToRow (assignId tx freshId) none now]
          ∧ (txToRow (assignId tx freshId) none now).metadata = none)) := by
  refine ⟨?_, ?_, ?_⟩
  · intro h0
    rw [create_fst, assignId_id_of_nil tx freshId h0]
  · intro h0
    rw [create_fst, assignId_id_of_ne tx freshId h0]
  · intro hmd
    have hEq := create_of_metadata_none marshal s tx freshId now hmd
    constructor
    · rw [hEq]
      exact createInsert_err_ne_marshal s (assignId tx freshId) none now
    · intro hsucc
      rw [hEq] at hsucc
      refine ⟨?_, txToRow_metadata _ _ _⟩
      rw [hEq]
      exact (createInsert_success s (assignId tx freshId) none now hsucc).2

/-- C10 witness: a concrete metadata-free record passed with the nil id
comes back carrying the generated id 42, the call cannot report the
marshal failure, and the row it persists has NULL metadata. -/
theorem create_inPlace_id_and_nil_metadata_witness :
    (Create (fun _ => none) []
        { id := 0, accountID := 2, type := TransactionType.refund,
          amountCents := 50, currency := "EUR", referenceID := none,
          status := TransactionStatus.refunded, expiresAt := none,
          metadata := none, createdAt := none } 42 7).1
      = { ({ id := 0, accountID := 2, type := TransactionType.refund,
             amountCents := 50, currency := "EUR", referenceID := none,
             status := TransactionStatus.refunded, expiresAt := none,
             metadata := none, createdAt := none } : Transaction) with id := 42 }
    ∧ (Create (fun _ => none) []
        { id := 0, accountID := 2, type := TransactionType.refund,
          amountCents := 50, currency := "EUR", referenceID := none,
          status := TransactionStatus.refunded, expiresAt := none,
          metadata := none, createdAt := none } 42 7).2.2
      ≠ some "failed to marshal metadata" :=
  ⟨(create_inPlace_id_and_nil_metadata (fun _ => none) []
      { id := 0, accountID := 2, type := TransactionType.refund,
        amountCents := 50, currency := "EUR", referenceID := none,
        status := TransactionStatus.refunded, expiresAt := none,
        metadata := none, createdAt := none } 42 7).1 rfl,
   ((create_inPlace_id_and_nil_metadata (fun _ => none) []
      { id := 0, accountID := 2, type := TransactionType.refund,
        amountCents := 50, currency := "EUR", referenceID := none,
        status := TransactionStatus.refunded, expiresAt := none,
        metadata := none, createdAt := none } 42 7).2.2 rfl).1⟩

end PaymentGateway
